import Mathlib

/-!
# Verification of the caching-proxy core (`main.go`)

A shallow embedding of the Go caching proxy: the cache store, the
cache-key generation (`generateCacheKey`), the response-interception
step (`proxy.ModifyResponse`), the request-rewrite step
(`proxy.Director`), and the request handler returned by
`createProxyHandler`.  HTTP requests, responses and header maps are
modelled explicitly; network transport and logging are outside the
embedded core.
-/

namespace CachingProxy

/-- Lexicographic order on strings by their character sequences.
This is the order used by Go's `sort.Strings` (byte-lexicographic,
which agrees with character-lexicographic order on the ASCII strings
appearing in query parameters). -/
def strLe (a b : String) : Prop := a.data ≤ b.data

instance : DecidableRel strLe := fun a b => inferInstanceAs (Decidable (a.data ≤ b.data))

instance : IsTotal String strLe := ⟨fun a b => le_total a.data b.data⟩

instance : IsTrans String strLe := ⟨fun _ _ _ h h' => le_trans h h'⟩

instance : IsAntisymm String strLe := ⟨fun _ _ h h' => String.ext (le_antisymm h h')⟩

/-- `http.Header` / `url.Values`: a mapping from a name to an ordered
sequence of values, modelled as an association list.  Go's maps have
unique keys; where a proof needs that fact it appears as a
`List.Nodup` hypothesis on the mapped names. -/
abbrev Headers := List (String × List String)

/-- The names (keys) of a header / query mapping. -/
def namesOf (h : Headers) : List String := h.map Prod.fst

/-- Lookup of the ordered value sequence for a name (`h[k]` on a Go
map, and `http.Header` values): the values of the first entry carrying
the name, `[]` when the name is absent. -/
def headerValues : Headers → String → List String
  | [], _ => []
  | (k', vs) :: t, k => if k' = k then vs else headerValues t k

/-- `http.Header.Del`: remove every entry for the name. -/
def headerDel (h : Headers) (k : String) : Headers :=
  h.filter (fun p => p.1 ≠ k)

/-- `http.Header.Set`: replace the entries for the name by the single
given value. -/
def headerSet (h : Headers) (k v : String) : Headers :=
  (k, [v]) :: headerDel h k

/-- `http.Header.Add`: append a value to the value sequence of the
name, creating the entry when absent. -/
def headerAdd : Headers → String → String → Headers
  | [], k, v => [(k, [v])]
  | (k', vs) :: t, k, v =>
      if k' = k then (k', vs ++ [v]) :: t else (k', vs) :: headerAdd t k v

/-- An inbound HTTP request, with the parts the core reads: method,
URL path, the parsed query parameters (`r.URL.Query()`), the target
host/scheme of the URL, the `Host` field, and the request headers. -/
structure Request where
  method : String
  path : String
  query : Headers
  urlHost : String
  urlScheme : String
  host : String
  headers : Headers
  deriving DecidableEq

/-- `generateCacheKey` from `main.go`: with no query parameters the
key is `METHOD:PATH`; otherwise the parameter names are sorted, and
for each name in sorted order one `name=value` pair is emitted per
value in original value order, all joined with `&` after
`METHOD:PATH?`. -/
def generateCacheKey (r : Request) : String :=
  if r.query.isEmpty then
    r.method ++ ":" ++ r.path
  else
    let keys := List.insertionSort strLe (namesOf r.query)
    let queryParts := (keys.map (fun k =>
      (headerValues r.query k).map (fun v => k ++ "=" ++ v))).flatten
    r.method ++ ":" ++ r.path ++ "?" ++ String.intercalate "&" queryParts

/-- One cache entry (`CachedResponse` in `main.go`): raw body bytes,
status code, the full origin header set, and a creation timestamp. -/
structure CachedResponse where
  response : List Nat
  statusCode : Nat
  headers : Headers
  timestamp : Nat
  deriving DecidableEq

/-- The cache store: a mapping from cache key to cached response,
modelled as an association list where the most recent `put` for a key
shadows older entries (Go map overwrite semantics under `cacheGet`). -/
abbrev Cache := List (String × CachedResponse)

/-- `cache[key]` lookup. -/
def cacheGet : Cache → String → Option CachedResponse
  | [], _ => none
  | (k', v) :: t, k => if k' = k then some v else cacheGet t k

/-- `cache[key] = value` insertion/overwrite. -/
def cachePut (c : Cache) (k : String) (v : CachedResponse) : Cache :=
  (k, v) :: c

/-- The host and scheme of the configured origin URL. -/
structure OriginURL where
  host : String
  scheme : String
  deriving DecidableEq

/-- `proxy.Director` from `main.go`: rewrite the outbound request's
URL host and scheme to the origin's, set the `Host` field to the
origin host, and delete any inbound `X-Cache` header.  Method, path
and query are untouched. -/
def director (o : OriginURL) (r : Request) : Request :=
  { r with
    urlHost := o.host
    urlScheme := o.scheme
    host := o.host
    headers := headerDel r.headers "X-Cache" }

/-- The origin's reaction to one forwarded request: the response
status, its headers, and the result of `io.ReadAll` on its body
(`none` when reading the body fails). -/
structure OriginBehavior where
  status : Nat
  headers : Headers
  readBody : Option (List Nat)
  deriving DecidableEq

/-- The outcome of `proxy.ModifyResponse`: the cache after the call
and either the restored response body (the `nil` return, with the
body re-attached for the client) or the returned error message. -/
structure ModifyOutcome where
  cache : Cache
  result : Except String (List Nat)

/-- `proxy.ModifyResponse` from `main.go`, applied to the response of
the request `r` (`resp.Request`): read the body (an error aborts with
the cache untouched), then if the status is in the 2xx range store a
`CachedResponse` under `generateCacheKey r`; otherwise store
nothing. -/
def modifyResponse (r : Request) (status : Nat) (hdrs : Headers)
    (readBody : Option (List Nat)) (now : Nat) (c : Cache) : ModifyOutcome :=
  let cacheKey := generateCacheKey r
  match readBody with
  | none => { cache := c, result := .error "failed to read response body for caching" }
  | some body =>
      if 200 ≤ status ∧ status < 300 then
        { cache := cachePut c cacheKey ⟨body, status, hdrs, now⟩, result := .ok body }
      else
        { cache := c, result := .ok body }

/-- A fully written response to the client: headers (including the
`X-Cache` marker), status code, and body bytes. -/
structure ClientResponse where
  headers : Headers
  status : Nat
  body : List Nat
  deriving DecidableEq

/-- How one request ends: a written response, or an error surfaced to
the client (the reverse proxy's error path). -/
inductive Outcome where
  | ok (resp : ClientResponse)
  | err (msg : String)
  deriving DecidableEq

/-- The result of running the handler on one request: the outcome for
the client, the cache afterwards, and whether the origin was called. -/
structure StepResult where
  outcome : Outcome
  cache : Cache
  originCalled : Bool
  deriving DecidableEq

/-- Copy a header set onto a response writer's headers with
`http.Header.Add`, value order preserved per name. -/
def copyAll (src : Headers) (w : Headers) : Headers :=
  src.foldl (fun acc p => p.2.foldl (fun a v => headerAdd a p.1 v) acc) w

/-- The hop-by-hop test of the HIT branch:
`k == "Connection" || k == "Transfer-Encoding"`. -/
def hopByHop (k : String) : Bool :=
  k == "Connection" || k == "Transfer-Encoding"

/-- The HIT branch of the handler: set `X-Cache: HIT`, copy every
cached header except `Connection` and `Transfer-Encoding`, set
`Content-Length` to the cached body's byte length, and write the
cached status and body. -/
def serveHit (cached : CachedResponse) : ClientResponse :=
  let w0 := headerSet [] "X-Cache" "HIT"
  let w1 := copyAll (cached.headers.filter (fun p => !hopByHop p.1)) w0
  let w2 := headerSet w1 "Content-Length" (toString cached.response.length)
  { headers := w2, status := cached.statusCode, body := cached.response }

/-- `proxy.ServeHTTP`: apply the director to obtain the outbound
request, call the origin, run `ModifyResponse` on the response (whose
`resp.Request` is the rewritten outbound request), and on success
deliver the origin's status, headers and restored body to the client
on top of the already-set marker header `w0`. -/
def forwardToOrigin (o : OriginURL) (origin : Request → OriginBehavior)
    (w0 : Headers) (r : Request) (now : Nat) (c : Cache) : StepResult :=
  let outreq := director o r
  let ob := origin outreq
  let m := modifyResponse outreq ob.status ob.headers ob.readBody now c
  match m.result with
  | .error e => { outcome := .err e, cache := m.cache, originCalled := true }
  | .ok body =>
      { outcome := .ok { headers := copyAll ob.headers w0
                         status := ob.status
                         body := body }
        cache := m.cache
        originCalled := true }

/-- The handler returned by `createProxyHandler`: non-GET requests set
`X-Cache: BYPASS` and are forwarded; GET requests are looked up under
their cache key and either served from cache (HIT) or forwarded with
`X-Cache: MISS`. -/
def handleRequest (o : OriginURL) (origin : Request → OriginBehavior)
    (r : Request) (now : Nat) (c : Cache) : StepResult :=
  if r.method ≠ "GET" then
    forwardToOrigin o origin (headerSet [] "X-Cache" "BYPASS") r now c
  else
    let cacheKey := generateCacheKey r
    match cacheGet c cacheKey with
    | some cached =>
        { outcome := .ok (serveHit cached), cache := c, originCalled := false }
    | none =>
        forwardToOrigin o origin (headerSet [] "X-Cache" "MISS") r now c

/-- The `X-Cache` marker of a step's outcome: the first value of the
`X-Cache` response header, when the step produced a response. -/
def markerOf (s : StepResult) : Option String :=
  match s.outcome with
  | .ok resp => (headerValues resp.headers "X-Cache").head?
  | .err _ => none

/-- The cache-key algorithm as the specification words it, using a
different sorting algorithm for the lexicographic sort of the
parameter names: with no query parameters the key is
`"<METHOD>:<PATH>"`; otherwise the parameter names are sorted
lexicographically, one `"name=value"` pair is appended per value in
each parameter's original value order, the pairs are joined with `&`,
and the key is `"<METHOD>:<PATH>?<joined-pairs>"`. -/
def specCacheKey (r : Request) : String :=
  if r.query.isEmpty then
    r.method ++ ":" ++ r.path
  else
    let sortedNames := List.mergeSort (namesOf r.query) (fun a b => decide (strLe a b))
    let pairs := (sortedNames.map (fun name =>
      (headerValues r.query name).map (fun v => name ++ "=" ++ v))).flatten
    r.method ++ ":" ++ r.path ++ "?" ++ String.intercalate "&" pairs

/-! ## Concrete sample data used by witnesses and counterexamples -/

/-- `GET /items?b=2&a=1` (query parameters in the order b, a). -/
def reqBA : Request :=
  ⟨"GET", "/items", [("b", ["2"]), ("a", ["1"])], "example.com", "http",
    "example.com", []⟩

/-- `GET /items?a=1&b=2` (query parameters in the order a, b). -/
def reqAB : Request :=
  ⟨"GET", "/items", [("a", ["1"]), ("b", ["2"])], "example.com", "http",
    "example.com", []⟩

/-- A sample configured origin URL. -/
def sampleOrigin : OriginURL := ⟨"origin.local", "http"⟩

/-- An origin that always answers 200 with one header and body `[123]`. -/
def ok200 : Request → OriginBehavior :=
  fun _ => ⟨200, [("Foo", ["bar"])], some [123]⟩

/-- An origin that always answers 404. -/
def err404 : Request → OriginBehavior :=
  fun _ => ⟨404, [], some [110]⟩

/-- An origin whose response body cannot be read. -/
def failOrigin : Request → OriginBehavior :=
  fun _ => ⟨200, [], none⟩

/-- A sample cached entry with a hop-by-hop header. -/
def cachedSample : CachedResponse :=
  ⟨[104, 105], 200, [("Foo", ["bar"]), ("Connection", ["keep-alive"])], 0⟩

/-- The store-wide invariant of C5: every entry retrievable from the
cache has a 2xx status code. -/
def cacheAll2xx (c : Cache) : Prop :=
  ∀ k v, cacheGet c k = some v → 200 ≤ v.statusCode ∧ v.statusCode < 300

/-- `GET /p?a=1&b=2`: two parameters a and b. -/
def reqCollide1 : Request :=
  ⟨"GET", "/p", [("a", ["1"]), ("b", ["2"])], "example.com", "http",
    "example.com", []⟩

/-- `GET /p?a=1%26b%3D2`: a single parameter a whose value contains
the literal separator characters, parsed as `a = "1&b=2"`. -/
def reqCollide2 : Request :=
  ⟨"GET", "/p", [("a", ["1&b=2"])], "example.com", "http",
    "example.com", []⟩

/-- `POST /items?a=1&b=2`: same path and query as `reqAB`. -/
def postReq : Request :=
  ⟨"POST", "/items", [("a", ["1"]), ("b", ["2"])], "example.com", "http",
    "example.com", []⟩

/-- The part of the cache key contributed by the query: empty for no
parameters, otherwise `?` followed by the joined sorted pairs. -/
def keySuffix (q : Headers) : String :=
  if q.isEmpty then ""
  else "?" ++ String.intercalate "&"
    ((List.insertionSort strLe (namesOf q)).map (fun k =>
      (headerValues q k).map (fun v => k ++ "=" ++ v))).flatten

/-! ## Lemmas about header operations -/

theorem headerValues_nil (k : String) : headerValues [] k = [] := rfl

theorem mem_namesOf {h : Headers} {k : String} :
    k ∈ namesOf h ↔ ∃ vs, (k, vs) ∈ h := by
  simp only [namesOf, List.mem_map]
  constructor
  · rintro ⟨⟨p1, p2⟩, hp, he⟩
    cases he
    exact ⟨p2, hp⟩
  · rintro ⟨vs, hvs⟩
    exact ⟨(k, vs), hvs, rfl⟩

theorem headerValues_eq_nil_of_not_mem {h : Headers} {k : String}
    (hk : k ∉ namesOf h) : headerValues h k = [] := by
  induction h with
  | nil => rfl
  | cons p t ih =>
      simp only [namesOf, List.map_cons, List.mem_cons, not_or] at hk
      obtain ⟨p1, p2⟩ := p
      have hne : ¬(p1 = k) := fun he => hk.1 he.symm
      simp only [headerValues, if_neg hne]
      exact ih hk.2

theorem headerValues_of_mem_of_nodup {h : Headers} {k : String} {vs : List String}
    (hmem : (k, vs) ∈ h) (hnd : (namesOf h).Nodup) : headerValues h k = vs := by
  induction h with
  | nil => simp at hmem
  | cons p t ih =>
      obtain ⟨p1, p2⟩ := p
      simp only [namesOf, List.map_cons, List.nodup_cons] at hnd
      rcases List.mem_cons.mp hmem with heq | htail
      · cases heq
        simp [headerValues]
      · have hne : p1 ≠ k := by
          intro hcontra
          exact hnd.1 (hcontra ▸ List.mem_map_of_mem Prod.fst htail)
        simp only [headerValues, if_neg hne]
        exact ih htail hnd.2

theorem headerValues_headerAdd_self (h : Headers) (k v : String) :
    headerValues (headerAdd h k v) k = headerValues h k ++ [v] := by
  induction h with
  | nil => simp [headerAdd, headerValues]
  | cons p t ih =>
      obtain ⟨p1, p2⟩ := p
      by_cases hp : p1 = k
      · subst hp
        simp [headerAdd, headerValues]
      · simp [headerAdd, headerValues, hp, ih]

theorem headerValues_headerAdd_other (h : Headers) {k k' : String} (v : String)
    (hne : k' ≠ k) : headerValues (headerAdd h k v) k' = headerValues h k' := by
  have hkk : k ≠ k' := Ne.symm hne
  induction h with
  | nil => simp [headerAdd, headerValues, hkk]
  | cons p t ih =>
      obtain ⟨p1, p2⟩ := p
      by_cases hp : p1 = k
      · subst hp
        simp [headerAdd, headerValues, hkk]
      · simp [headerAdd, headerValues, hp, hne, hkk, ih]

theorem headerValues_foldlAdd_self (vs : List String) (h : Headers) (k : String) :
    headerValues (vs.foldl (fun a v => headerAdd a k v) h) k
      = headerValues h k ++ vs := by
  induction vs generalizing h with
  | nil => simp
  | cons v t ih =>
      simp only [List.foldl_cons]
      rw [ih, headerValues_headerAdd_self, List.append_assoc]
      rfl

theorem headerValues_foldlAdd_other (vs : List String) (h : Headers) {k k' : String}
    (hne : k' ≠ k) :
    headerValues (vs.foldl (fun a v => headerAdd a k v) h) k'
      = headerValues h k' := by
  induction vs generalizing h with
  | nil => simp
  | cons v t ih =>
      simp only [List.foldl_cons]
      rw [ih, headerValues_headerAdd_other _ _ hne]

theorem headerValues_filter_of_keep {p : String × List String → Bool} (h : Headers)
    (k : String) (hkeep : ∀ vs, p (k, vs) = true) :
    headerValues (h.filter p) k = headerValues h k := by
  induction h with
  | nil => rfl
  | cons q t ih =>
      obtain ⟨q1, q2⟩ := q
      rw [List.filter_cons]
      by_cases hq : q1 = k
      · subst hq
        rw [if_pos (hkeep q2)]
        simp [headerValues, ih]
      · by_cases hpq : p (q1, q2) = true
        · rw [if_pos hpq]
          simp [headerValues, hq, ih]
        · rw [if_neg (by simp [hpq])]
          simp [headerValues, hq, ih]

theorem headerValues_filter_of_drop {p : String × List String → Bool} (h : Headers)
    (k : String) (hdrop : ∀ vs, p (k, vs) = false) :
    headerValues (h.filter p) k = [] := by
  apply headerValues_eq_nil_of_not_mem
  intro hmem
  obtain ⟨vs, hvs⟩ := mem_namesOf.mp hmem
  have := (List.mem_filter.mp hvs).2
  rw [hdrop vs] at this
  exact Bool.false_ne_true this

theorem headerValues_headerDel_self (h : Headers) (k : String) :
    headerValues (headerDel h k) k = [] := by
  apply headerValues_filter_of_drop
  intro vs
  simp

theorem headerValues_headerDel_other (h : Headers) {k k' : String} (hne : k' ≠ k) :
    headerValues (headerDel h k) k' = headerValues h k' := by
  apply headerValues_filter_of_keep
  intro vs
  simp [hne]

theorem headerValues_headerSet_self (h : Headers) (k v : String) :
    headerValues (headerSet h k v) k = [v] := by
  simp [headerSet, headerValues]

theorem headerValues_headerSet_other (h : Headers) {k k' : String} (v : String)
    (hne : k' ≠ k) : headerValues (headerSet h k v) k' = headerValues h k' := by
  have hkk : ¬(k = k') := Ne.symm hne
  simp only [headerSet, headerValues, if_neg hkk]
  exact headerValues_headerDel_other h hne

theorem copyAll_cons (p : String × List String) (t : Headers) (w : Headers) :
    copyAll (p :: t) w = copyAll t (p.2.foldl (fun a v => headerAdd a p.1 v) w) := rfl

theorem headerValues_copyAll_of_nodup {src : Headers} (w : Headers) (k : String)
    (hnd : (namesOf src).Nodup) :
    headerValues (copyAll src w) k = headerValues w k ++ headerValues src k := by
  induction src generalizing w with
  | nil => simp [copyAll, headerValues]
  | cons p t ih =>
      obtain ⟨p1, p2⟩ := p
      simp only [namesOf, List.map_cons, List.nodup_cons] at hnd
      rw [copyAll_cons]
      rw [ih _ hnd.2]
      by_cases hk : p1 = k
      · subst hk
        rw [headerValues_foldlAdd_self]
        have : headerValues t p1 = [] := by
          apply headerValues_eq_nil_of_not_mem
          exact hnd.1
        simp [headerValues, this]
      · rw [headerValues_foldlAdd_other _ _ (Ne.symm hk)]
        simp [headerValues, hk]

theorem headerValues_copyAll_extends (src : Headers) (w : Headers) (k : String) :
    ∃ t, headerValues (copyAll src w) k = headerValues w k ++ t := by
  induction src generalizing w with
  | nil => exact ⟨[], by simp [copyAll]⟩
  | cons p tl ih =>
      obtain ⟨p1, p2⟩ := p
      rw [copyAll_cons]
      obtain ⟨t, ht⟩ := ih (p2.foldl (fun a v => headerAdd a p1 v) w)
      by_cases hk : p1 = k
      · subst hk
        rw [headerValues_foldlAdd_self] at ht
        exact ⟨p2 ++ t, by rw [ht, List.append_assoc]⟩
      · rw [headerValues_foldlAdd_other _ _ (Ne.symm hk)] at ht
        exact ⟨t, ht⟩

theorem head_headerValues_copyAll {w : Headers} {k m : String} {ms : List String}
    (src : Headers) (hw : headerValues w k = m :: ms) :
    (headerValues (copyAll src w) k).head? = some m := by
  obtain ⟨t, ht⟩ := headerValues_copyAll_extends src w k
  rw [ht, hw]
  rfl

theorem nodup_names_filter (h : Headers) (p : String × List String → Bool)
    (hnd : (namesOf h).Nodup) : (namesOf (h.filter p)).Nodup :=
  hnd.sublist (List.Sublist.map Prod.fst (List.filter_sublist h))

theorem hopByHop_eq_false {k : String} (h1 : k ≠ "Connection")
    (h2 : k ≠ "Transfer-Encoding") : hopByHop k = false := by
  simp [hopByHop, h1, h2]

/-- Full characterization of the HIT branch's response. -/
theorem serveHit_spec (cached : CachedResponse)
    (hnd : (namesOf cached.headers).Nodup) :
    (serveHit cached).status = cached.statusCode
  ∧ (serveHit cached).body = cached.response
  ∧ headerValues (serveHit cached).headers "X-Cache"
      = "HIT" :: headerValues cached.headers "X-Cache"
  ∧ headerValues (serveHit cached).headers "Connection" = []
  ∧ headerValues (serveHit cached).headers "Transfer-Encoding" = []
  ∧ headerValues (serveHit cached).headers "Content-Length"
      = [toString cached.response.length]
  ∧ (∀ k, k ≠ "Connection" → k ≠ "Transfer-Encoding" → k ≠ "Content-Length" →
      k ≠ "X-Cache" →
      headerValues (serveHit cached).headers k = headerValues cached.headers k) := by
  have hndf := nodup_names_filter cached.headers (fun p => !hopByHop p.1) hnd
  refine ⟨rfl, rfl, ?_, ?_, ?_, ?_, ?_⟩
  · rw [show (serveHit cached).headers = headerSet
      (copyAll (cached.headers.filter (fun p => !hopByHop p.1))
        (headerSet [] "X-Cache" "HIT"))
      "Content-Length" (toString cached.response.length) from rfl]
    rw [headerValues_headerSet_other _ _ (by decide)]
    rw [headerValues_copyAll_of_nodup _ _ hndf]
    rw [headerValues_headerSet_self]
    rw [headerValues_filter_of_keep _ _ (fun vs => by simp [hopByHop])]
    rfl
  · rw [show (serveHit cached).headers = headerSet
      (copyAll (cached.headers.filter (fun p => !hopByHop p.1))
        (headerSet [] "X-Cache" "HIT"))
      "Content-Length" (toString cached.response.length) from rfl]
    rw [headerValues_headerSet_other _ _ (by decide)]
    rw [headerValues_copyAll_of_nodup _ _ hndf]
    rw [headerValues_filter_of_drop _ _ (fun vs => by simp [hopByHop])]
    rw [headerValues_headerSet_other _ _ (by decide)]
    rfl
  · rw [show (serveHit cached).headers = headerSet
      (copyAll (cached.headers.filter (fun p => !hopByHop p.1))
        (headerSet [] "X-Cache" "HIT"))
      "Content-Length" (toString cached.response.length) from rfl]
    rw [headerValues_headerSet_other _ _ (by decide)]
    rw [headerValues_copyAll_of_nodup _ _ hndf]
    rw [headerValues_filter_of_drop _ _ (fun vs => by simp [hopByHop])]
    rw [headerValues_headerSet_other _ _ (by decide)]
    rfl
  · rw [show (serveHit cached).headers = headerSet
      (copyAll (cached.headers.filter (fun p => !hopByHop p.1))
        (headerSet [] "X-Cache" "HIT"))
      "Content-Length" (toString cached.response.length) from rfl]
    rw [headerValues_headerSet_self]
  · intro k hk1 hk2 hk3 hk4
    rw [show (serveHit cached).headers = headerSet
      (copyAll (cached.headers.filter (fun p => !hopByHop p.1))
        (headerSet [] "X-Cache" "HIT"))
      "Content-Length" (toString cached.response.length) from rfl]
    rw [headerValues_headerSet_other _ _ hk3]
    rw [headerValues_copyAll_of_nodup _ _ hndf]
    rw [headerValues_headerSet_other _ _ hk4]
    rw [headerValues_filter_of_keep _ _
      (fun vs => by simp [hopByHop_eq_false hk1 hk2])]
    rfl

/-! ## Lemmas about the cache store -/

theorem cacheGet_cachePut_self (c : Cache) (k : String) (v : CachedResponse) :
    cacheGet (cachePut c k v) k = some v := by
  simp [cachePut, cacheGet]

theorem cacheGet_cachePut_other (c : Cache) {k k' : String} (v : CachedResponse)
    (hne : k ≠ k') : cacheGet (cachePut c k v) k' = cacheGet c k' := by
  simp [cachePut, cacheGet, hne]

/-! ## Structure of the generated cache key -/

theorem generateCacheKey_method_leads (r : Request) :
    ∃ t : String, generateCacheKey r = r.method ++ ":" ++ t := by
  unfold generateCacheKey
  by_cases h : r.query.isEmpty
  · exact ⟨r.path, by rw [if_pos h]⟩
  · refine ⟨r.path ++ "?" ++ String.intercalate "&"
      (((List.insertionSort strLe (namesOf r.query)).map (fun k =>
        (headerValues r.query k).map (fun v => k ++ "=" ++ v))).flatten), ?_⟩
    rw [if_neg h]
    simp [String.append_assoc]

theorem takeWhile_append_colon (l r : List Char) (hl : ∀ c ∈ l, c ≠ ':') :
    (l ++ ':' :: r).takeWhile (fun c => c ≠ ':') = l := by
  induction l with
  | nil => simp [List.takeWhile_cons]
  | cons a t ih =>
      have ha : a ≠ ':' := hl a (List.mem_cons_self a t)
      simp only [List.cons_append, List.takeWhile_cons, decide_eq_true_eq]
      rw [if_pos ha, ih (fun c hc => hl c (List.mem_cons_of_mem a hc))]

theorem data_method_colon (m t : String) :
    (m ++ ":" ++ t).data = m.data ++ ':' :: t.data := by
  simp [String.data_append]

theorem key_method_inj {m₁ m₂ t₁ t₂ : String}
    (h₁ : ':' ∉ m₁.data) (h₂ : ':' ∉ m₂.data)
    (he : m₁ ++ ":" ++ t₁ = m₂ ++ ":" ++ t₂) : m₁ = m₂ ∧ t₁ = t₂ := by
  have hd : m₁.data ++ ':' :: t₁.data = m₂.data ++ ':' :: t₂.data := by
    have := congrArg String.data he
    rwa [data_method_colon, data_method_colon] at this
  have hm : m₁.data = m₂.data := by
    have htw := congrArg (List.takeWhile (fun c => c ≠ ':')) hd
    rwa [takeWhile_append_colon _ _ (fun c hc he' => h₁ (he' ▸ hc)),
      takeWhile_append_colon _ _ (fun c hc he' => h₂ (he' ▸ hc))] at htw
  refine ⟨String.ext hm, ?_⟩
  rw [hm] at hd
  have := List.append_cancel_left hd
  exact String.ext (by injection this)

theorem string_append_right_cancel {a b c : String} (h : a ++ c = b ++ c) :
    a = b := by
  have := congrArg String.data h
  rw [String.data_append, String.data_append] at this
  exact String.ext (List.append_cancel_right this)

/-! ## Permutation invariance of lookups and sorting -/

theorem headerValues_perm {q₁ q₂ : Headers} (hp : q₁.Perm q₂)
    (hnd : (namesOf q₁).Nodup) (k : String) :
    headerValues q₁ k = headerValues q₂ k := by
  have hpn : (namesOf q₁).Perm (namesOf q₂) := hp.map Prod.fst
  have hnd₂ : (namesOf q₂).Nodup := hpn.nodup_iff.mp hnd
  by_cases hk : k ∈ namesOf q₁
  · obtain ⟨vs, hvs⟩ := mem_namesOf.mp hk
    rw [headerValues_of_mem_of_nodup hvs hnd,
      headerValues_of_mem_of_nodup (hp.mem_iff.mp hvs) hnd₂]
  · rw [headerValues_eq_nil_of_not_mem hk,
      headerValues_eq_nil_of_not_mem (fun hmem => hk (hpn.mem_iff.mpr hmem))]

theorem insertionSort_eq_of_perm {l₁ l₂ : List String} (hp : l₁.Perm l₂) :
    List.insertionSort strLe l₁ = List.insertionSort strLe l₂ :=
  List.eq_of_perm_of_sorted
    ((List.perm_insertionSort strLe l₁).trans
      (hp.trans (List.perm_insertionSort strLe l₂).symm))
    (List.sorted_insertionSort strLe l₁)
    (List.sorted_insertionSort strLe l₂)

theorem mergeSort_eq_insertionSort (l : List String) :
    List.mergeSort l (fun a b => decide (strLe a b)) = List.insertionSort strLe l := by
  have hs : List.Sorted strLe (List.mergeSort l (fun a b => decide (strLe a b))) := by
    have htrans : ∀ (a b c : String), decide (strLe a b) = true →
        decide (strLe b c) = true → decide (strLe a c) = true := by
      intro a b c hab hbc
      exact decide_eq_true ((inferInstanceAs (IsTrans String strLe)).trans a b c
        (of_decide_eq_true hab) (of_decide_eq_true hbc))
    have htotal : ∀ (a b : String),
        (decide (strLe a b) || decide (strLe b a)) = true := by
      intro a b
      rcases (inferInstanceAs (IsTotal String strLe)).total a b with h | h
      · simp [decide_eq_true h]
      · simp [decide_eq_true h]
    have hp := List.sorted_mergeSort htrans htotal l
    exact hp.imp (fun h => of_decide_eq_true h)
  exact List.eq_of_perm_of_sorted
    ((List.mergeSort_perm l _).trans (List.perm_insertionSort strLe l).symm)
    hs (List.sorted_insertionSort strLe l)

/-! ## Unfolding lemmas for the handler -/

theorem handleRequest_not_get (o : OriginURL) (origin : Request → OriginBehavior)
    (r : Request) (now : Nat) (c : Cache) (h : r.method ≠ "GET") :
    handleRequest o origin r now c
      = forwardToOrigin o origin (headerSet [] "X-Cache" "BYPASS") r now c := by
  simp [handleRequest, h]

theorem handleRequest_hit (o : OriginURL) (origin : Request → OriginBehavior)
    (r : Request) (now : Nat) (c : Cache) (cached : CachedResponse)
    (hm : r.method = "GET")
    (hf : cacheGet c (generateCacheKey r) = some cached) :
    handleRequest o origin r now c
      = { outcome := .ok (serveHit cached), cache := c, originCalled := false } := by
  simp [handleRequest, hm, hf]

theorem handleRequest_miss (o : OriginURL) (origin : Request → OriginBehavior)
    (r : Request) (now : Nat) (c : Cache) (hm : r.method = "GET")
    (hf : cacheGet c (generateCacheKey r) = none) :
    handleRequest o origin r now c
      = forwardToOrigin o origin (headerSet [] "X-Cache" "MISS") r now c := by
  simp [handleRequest, hm, hf]

theorem forwardToOrigin_ok (o : OriginURL) (origin : Request → OriginBehavior)
    (w0 : Headers) (r : Request) (now : Nat) (c : Cache) (st : Nat) (h : Headers)
    (b : List Nat) (ho : origin (director o r) = ⟨st, h, some b⟩) :
    forwardToOrigin o origin w0 r now c
      = { outcome := .ok { headers := copyAll h w0, status := st, body := b }
          cache := if 200 ≤ st ∧ st < 300 then
            cachePut c (generateCacheKey (director o r)) ⟨b, st, h, now⟩ else c
          originCalled := true } := by
  by_cases h2 : 200 ≤ st ∧ st < 300
  · simp [forwardToOrigin, ho, modifyResponse, h2]
  · simp [forwardToOrigin, ho, modifyResponse, h2]

theorem forwardToOrigin_err (o : OriginURL) (origin : Request → OriginBehavior)
    (w0 : Headers) (r : Request) (now : Nat) (c : Cache) (st : Nat) (h : Headers)
    (ho : origin (director o r) = ⟨st, h, none⟩) :
    forwardToOrigin o origin w0 r now c
      = { outcome := .err "failed to read response body for caching"
          cache := c, originCalled := true } := by
  simp [forwardToOrigin, ho, modifyResponse]

theorem forwardToOrigin_outcome_indep (o : OriginURL)
    (origin : Request → OriginBehavior) (w0 : Headers) (r : Request) (now : Nat)
    (c₁ c₂ : Cache) :
    (forwardToOrigin o origin w0 r now c₁).outcome
      = (forwardToOrigin o origin w0 r now c₂).outcome := by
  rcases ho : origin (director o r) with ⟨st, hh, _ | b⟩
  · rw [forwardToOrigin_err o origin w0 r now c₁ st hh ho,
      forwardToOrigin_err o origin w0 r now c₂ st hh ho]
  · rw [forwardToOrigin_ok o origin w0 r now c₁ st hh b ho,
      forwardToOrigin_ok o origin w0 r now c₂ st hh b ho]

theorem forward_marker (o : OriginURL) (origin : Request → OriginBehavior)
    (r : Request) (now : Nat) (c : Cache) (m : String) :
    ∀ resp, (forwardToOrigin o origin (headerSet [] "X-Cache" m) r now c).outcome
        = .ok resp →
      (headerValues resp.headers "X-Cache").head? = some m := by
  intro resp hr
  rcases ho : origin (director o r) with ⟨st, hh, _ | b⟩
  · rw [forwardToOrigin_err o origin _ r now c st hh ho] at hr
    exact absurd hr (by simp)
  · rw [forwardToOrigin_ok o origin _ r now c st hh b ho] at hr
    have hresp : resp.headers = copyAll hh (headerSet [] "X-Cache" m) := by
      injection hr with h
      rw [← h]
    rw [hresp]
    exact head_headerValues_copyAll hh (headerValues_headerSet_self [] "X-Cache" m)

theorem cacheAll2xx_cachePut {c : Cache} {k : String} {v : CachedResponse}
    (hc : cacheAll2xx c) (hv : 200 ≤ v.statusCode ∧ v.statusCode < 300) :
    cacheAll2xx (cachePut c k v) := by
  intro k' v' h
  by_cases hk : k = k'
  · subst hk
    rw [cacheGet_cachePut_self] at h
    cases h
    exact hv
  · rw [cacheGet_cachePut_other c v hk] at h
    exact hc k' v' h

theorem forward_cache_invariant (o : OriginURL) (origin : Request → OriginBehavior)
    (w0 : Headers) (r : Request) (now : Nat) (c : Cache) (hc : cacheAll2xx c) :
    cacheAll2xx (forwardToOrigin o origin w0 r now c).cache := by
  rcases ho : origin (director o r) with ⟨st, hh, _ | b⟩
  · rw [forwardToOrigin_err o origin w0 r now c st hh ho]
    exact hc
  · rw [forwardToOrigin_ok o origin w0 r now c st hh b ho]
    show cacheAll2xx (if 200 ≤ st ∧ st < 300 then
      cachePut c (generateCacheKey (director o r)) ⟨b, st, hh, now⟩ else c)
    by_cases h2 : 200 ≤ st ∧ st < 300
    · rw [if_pos h2]
      exact cacheAll2xx_cachePut hc h2
    · rw [if_neg h2]
      exact hc

theorem handleRequest_miss_store (o : OriginURL) (origin : Request → OriginBehavior)
    (r : Request) (now : Nat) (c : Cache) (st : Nat) (h : Headers) (b : List Nat)
    (hm : r.method = "GET") (hf : cacheGet c (generateCacheKey r) = none)
    (ho : origin (director o r) = ⟨st, h, some b⟩) (h2 : 200 ≤ st ∧ st < 300) :
    (handleRequest o origin r now c).cache
      = cachePut c (generateCacheKey r) ⟨b, st, h, now⟩ := by
  rw [handleRequest_miss o origin r now c hm hf,
    forwardToOrigin_ok o origin _ r now c st h b ho]
  show (if 200 ≤ st ∧ st < 300 then
      cachePut c (generateCacheKey (director o r)) ⟨b, st, h, now⟩ else c)
    = cachePut c (generateCacheKey r) ⟨b, st, h, now⟩
  rw [if_pos h2]
  rfl

theorem handleRequest_nostore_of_not2xx (o : OriginURL)
    (origin : Request → OriginBehavior) (r : Request) (now : Nat) (c : Cache)
    (st : Nat) (h : Headers) (b : List Nat)
    (ho : origin (director o r) = ⟨st, h, some b⟩)
    (hn2 : ¬(200 ≤ st ∧ st < 300)) :
    (handleRequest o origin r now c).cache = c := by
  by_cases hm : r.method = "GET"
  · rcases hf : cacheGet c (generateCacheKey r) with _ | cached
    · rw [handleRequest_miss o origin r now c hm hf,
        forwardToOrigin_ok o origin _ r now c st h b ho]
      show (if 200 ≤ st ∧ st < 300 then
          cachePut c (generateCacheKey (director o r)) ⟨b, st, h, now⟩ else c) = c
      rw [if_neg hn2]
    · rw [handleRequest_hit o origin r now c cached hm hf]
  · rw [handleRequest_not_get o origin r now c hm,
      forwardToOrigin_ok o origin _ r now c st h b ho]
    show (if 200 ≤ st ∧ st < 300 then
        cachePut c (generateCacheKey (director o r)) ⟨b, st, h, now⟩ else c) = c
    rw [if_neg hn2]

theorem handleRequest_miss_marker (o : OriginURL)
    (origin : Request → OriginBehavior) (r : Request) (now : Nat) (c : Cache)
    (st : Nat) (h : Headers) (b : List Nat)
    (hm : r.method = "GET") (hf : cacheGet c (generateCacheKey r) = none)
    (ho : origin (director o r) = ⟨st, h, some b⟩) :
    markerOf (handleRequest o origin r now c) = some "MISS" := by
  rw [handleRequest_miss o origin r now c hm hf,
    forwardToOrigin_ok o origin _ r now c st h b ho]
  show (headerValues (copyAll h (headerSet [] "X-Cache" "MISS")) "X-Cache").head?
    = some "MISS"
  exact head_headerValues_copyAll h (headerValues_headerSet_self [] "X-Cache" "MISS")

theorem generateCacheKey_parts (r : Request) :
    generateCacheKey r = r.method ++ ":" ++ (r.path ++ keySuffix r.query) := by
  unfold generateCacheKey keySuffix
  by_cases h : r.query.isEmpty
  · rw [if_pos h, if_pos h]
    simp [String.append_assoc]
  · rw [if_neg h, if_neg h]
    simp [String.append_assoc]

/-! ## Claims -/

/-- C2: `generateCacheKey` follows the specified algorithm exactly:
with no query parameters the key is `"<METHOD>:<PATH>"`; otherwise the
parameter names are sorted lexicographically, one `"name=value"` pair
is emitted per value in each parameter's original value order, the
pairs are joined with `&`, and the key is
`"<METHOD>:<PATH>?<joined-pairs>"` (as formulated by `specCacheKey`,
which words the algorithm with an independent sorting routine). -/
theorem generateCacheKey_follows_spec (r : Request) :
    generateCacheKey r = specCacheKey r := by
  simp only [generateCacheKey, specCacheKey, mergeSort_eq_insertionSort]

/-- C3: two requests with the same method, the same path and the same
query-parameter multiset (same names with the same value sequences),
differing only in the order of the distinct parameter names, get the
identical cache key. -/
theorem cacheKey_query_order_irrelevant (r₁ r₂ : Request)
    (hm : r₁.method = r₂.method) (hp : r₁.path = r₂.path)
    (hq : r₁.query.Perm r₂.query) (hnd : (namesOf r₁.query).Nodup) :
    generateCacheKey r₁ = generateCacheKey r₂ := by
  unfold generateCacheKey
  by_cases h1 : r₁.query = []
  · have h2 : r₂.query = [] := (h1 ▸ hq : List.Perm ([] : Headers) r₂.query).symm.eq_nil
    rw [h1, h2]
    simp [hm, hp]
  · have h2 : r₂.query ≠ [] := fun hnil =>
      h1 ((hnil ▸ hq : List.Perm r₁.query ([] : Headers)).eq_nil)
    rw [if_neg (by simpa using h1), if_neg (by simpa using h2), hm, hp,
      insertionSort_eq_of_perm
        (show (namesOf r₁.query).Perm (namesOf r₂.query) from hq.map Prod.fst)]
    have hv : (fun k => (headerValues r₁.query k).map (fun v => k ++ "=" ++ v))
        = (fun k => (headerValues r₂.query k).map (fun v => k ++ "=" ++ v)) :=
      funext (fun k => by rw [headerValues_perm hq hnd k])
    rw [hv]

/-- Witness for C3 at the spec's own example: `GET /items?b=2&a=1` and
`GET /items?a=1&b=2` get the same key. -/
theorem cacheKey_query_order_irrelevant_witness :
    (reqBA.method = reqAB.method ∧ reqBA.path = reqAB.path
      ∧ reqBA.query.Perm reqAB.query ∧ (namesOf reqBA.query).Nodup)
    ∧ generateCacheKey reqBA = generateCacheKey reqAB :=
  ⟨⟨rfl, rfl, by decide, by decide⟩,
    cacheKey_query_order_irrelevant reqBA reqAB rfl rfl (by decide) (by decide)⟩

/-- C9: the key under which a qualifying miss is stored is derived
from the original client request — the director's rewrite of host,
scheme and `Host` header does not change the key — so a subsequent
identical client request computes exactly the stored key: the entry
written on a 2xx miss sits under `generateCacheKey r` of the original
request `r`. -/
theorem put_key_matches_client_request (o : OriginURL)
    (origin : Request → OriginBehavior) (r : Request) (now : Nat) (c : Cache) :
    generateCacheKey (director o r) = generateCacheKey r
  ∧ (∀ st h b, origin (director o r) = ⟨st, h, some b⟩ → 200 ≤ st → st < 300 →
      r.method = "GET" → cacheGet c (generateCacheKey r) = none →
      (handleRequest o origin r now c).cache
        = cachePut c (generateCacheKey r) ⟨b, st, h, now⟩) := by
  constructor
  · rfl
  · intro st h b ho h200 h300 hm hf
    rw [handleRequest_miss o origin r now c hm hf,
      forwardToOrigin_ok o origin _ r now c st h b ho]
    show (if 200 ≤ st ∧ st < 300 then
        cachePut c (generateCacheKey (director o r)) ⟨b, st, h, now⟩ else c)
      = cachePut c (generateCacheKey r) ⟨b, st, h, now⟩
    rw [if_pos ⟨h200, h300⟩]
    rfl

/-- Witness for C9: a concrete GET miss against an empty cache stores
the origin's 200 response under the original request's key. -/
theorem put_key_matches_client_request_witness :
    generateCacheKey (director sampleOrigin reqAB) = generateCacheKey reqAB
    ∧ (handleRequest sampleOrigin ok200 reqAB 0 []).cache
        = cachePut [] (generateCacheKey reqAB) ⟨[123], 200, [("Foo", ["bar"])], 0⟩ :=
  ⟨(put_key_matches_client_request sampleOrigin ok200 reqAB 0 []).1,
    (put_key_matches_client_request sampleOrigin ok200 reqAB 0 []).2
      200 [("Foo", ["bar"])] [123] rfl (by decide) (by decide) rfl rfl⟩

/-- C4 counterexample: two GET requests to the same path whose query
content differs — `reqCollide1` has parameters `a=1` and `b=2`,
`reqCollide2` has the single parameter `a` with value `"1&b=2"` — yet
`generateCacheKey` gives both the very same key, because values are
joined with `&`/`=` without any escaping.  This falsifies the claim
that requests differing in query content always produce different
keys. -/
theorem cacheKey_collision_on_query_content :
    reqCollide1.method = reqCollide2.method
  ∧ reqCollide1.path = reqCollide2.path
  ∧ reqCollide1.query ≠ reqCollide2.query
  ∧ ¬ reqCollide1.query.Perm reqCollide2.query
  ∧ generateCacheKey reqCollide1 = generateCacheKey reqCollide2
  ∧ generateCacheKey reqCollide1 = "GET:/p?a=1&b=2" :=
  ⟨rfl, rfl, by decide, by decide, by decide, by decide⟩

/-- C4 (amended): requests that differ in method or in path, with
identical query parameters and methods free of `':'` (every valid
HTTP method token is), get different cache keys; the original claim's
further assertion — that different query content also always yields a
different key — is false (see the collision counterexample), since
parameter values are joined unescaped. -/
theorem cacheKey_injective_on_method_path (r₁ r₂ : Request)
    (hc₁ : ':' ∉ r₁.method.data) (hc₂ : ':' ∉ r₂.method.data)
    (hq : r₁.query = r₂.query)
    (hne : r₁.method ≠ r₂.method ∨ r₁.path ≠ r₂.path) :
    generateCacheKey r₁ ≠ generateCacheKey r₂ := by
  intro he
  rw [generateCacheKey_parts r₁, generateCacheKey_parts r₂, ← hq] at he
  obtain ⟨hm, ht⟩ := key_method_inj hc₁ hc₂ he
  have hp : r₁.path = r₂.path := by
    rcases hs : keySuffix r₁.query with ⟨sd⟩
    have : r₁.path ++ ⟨sd⟩ = r₂.path ++ ⟨sd⟩ := hs ▸ ht
    exact string_append_right_cancel this
  rcases hne with h | h
  · exact h hm
  · exact h hp

/-- Witness for C4 (amended): `GET /items?a=1&b=2` and
`POST /items?a=1&b=2` get different keys. -/
theorem cacheKey_injective_on_method_path_witness :
    (':' ∉ reqAB.method.data ∧ ':' ∉ postReq.method.data
      ∧ reqAB.query = postReq.query ∧ reqAB.method ≠ postReq.method)
    ∧ generateCacheKey reqAB ≠ generateCacheKey postReq :=
  ⟨⟨by decide, by decide, rfl, by decide⟩,
    cacheKey_injective_on_method_path reqAB postReq (by decide) (by decide) rfl
      (Or.inl (by decide))⟩

/-- C1 counterexample: a POST request whose origin answers 200 *does*
populate the cache store — the response interception caches every 2xx
response, with no method check — falsifying the claim that a non-GET
request's response is never stored.  The stored entry sits under the
key `POST:/items?a=1&b=2`. -/
theorem bypass_request_stores_response :
    postReq.method ≠ "GET"
  ∧ (handleRequest sampleOrigin ok200 postReq 0 []).cache ≠ ([] : Cache)
  ∧ cacheGet (handleRequest sampleOrigin ok200 postReq 0 []).cache
      (generateCacheKey postReq) = some ⟨[123], 200, [("Foo", ["bar"])], 0⟩ :=
  ⟨by decide, by decide, by decide⟩

/-- C1 (amended): every non-GET request bypasses the cache *lookup*:
it is forwarded to the origin unconditionally, its outcome never
depends on the cache contents, and the outgoing response carries the
marker `X-Cache: BYPASS`.  However — contrary to the original claim —
the origin's response *is* stored in the cache store when its status
is 2xx (under the non-GET key, which no lookup ever consults); only a
non-2xx response leaves the store unchanged. -/
theorem non_get_bypasses_lookup_but_stores (o : OriginURL)
    (origin : Request → OriginBehavior) (r : Request) (now : Nat) (c : Cache)
    (hng : r.method ≠ "GET") :
    (handleRequest o origin r now c).originCalled = true
  ∧ (∀ resp, (handleRequest o origin r now c).outcome = .ok resp →
      (headerValues resp.headers "X-Cache").head? = some "BYPASS")
  ∧ (∀ c', (handleRequest o origin r now c').outcome
      = (handleRequest o origin r now c).outcome)
  ∧ (∀ st h b, origin (director o r) = ⟨st, h, some b⟩ → 200 ≤ st → st < 300 →
      (handleRequest o origin r now c).cache
        = cachePut c (generateCacheKey r) ⟨b, st, h, now⟩)
  ∧ (∀ st h b, origin (director o r) = ⟨st, h, some b⟩ → ¬(200 ≤ st ∧ st < 300) →
      (handleRequest o origin r now c).cache = c) := by
  rw [handleRequest_not_get o origin r now c hng]
  refine ⟨?_, ?_, ?_, ?_, ?_⟩
  · rcases ho : origin (director o r) with ⟨st, hh, _ | b⟩
    · rw [forwardToOrigin_err o origin _ r now c st hh ho]
    · rw [forwardToOrigin_ok o origin _ r now c st hh b ho]
  · exact forward_marker o origin r now c "BYPASS"
  · intro c'
    rw [handleRequest_not_get o origin r now c' hng]
    exact forwardToOrigin_outcome_indep o origin _ r now c' c
  · intro st h b ho h200 h300
    rw [forwardToOrigin_ok o origin _ r now c st h b ho]
    show (if 200 ≤ st ∧ st < 300 then
        cachePut c (generateCacheKey (director o r)) ⟨b, st, h, now⟩ else c)
      = cachePut c (generateCacheKey r) ⟨b, st, h, now⟩
    rw [if_pos ⟨h200, h300⟩]
    rfl
  · intro st h b ho hn2
    rw [forwardToOrigin_ok o origin _ r now c st h b ho]
    show (if 200 ≤ st ∧ st < 300 then
        cachePut c (generateCacheKey (director o r)) ⟨b, st, h, now⟩ else c) = c
    rw [if_neg hn2]

/-- Witness for C1 (amended): the concrete POST request forwarded to
an origin answering 200 — origin called, BYPASS marker, and the 200
response stored under the POST key. -/
theorem non_get_bypasses_lookup_but_stores_witness :
    postReq.method ≠ "GET"
  ∧ (handleRequest sampleOrigin ok200 postReq 0 []).originCalled = true
  ∧ (∀ resp, (handleRequest sampleOrigin ok200 postReq 0 []).outcome = .ok resp →
      (headerValues resp.headers "X-Cache").head? = some "BYPASS")
  ∧ (handleRequest sampleOrigin ok200 postReq 0 []).cache
      = cachePut [] (generateCacheKey postReq) ⟨[123], 200, [("Foo", ["bar"])], 0⟩ :=
  ⟨by decide,
    (non_get_bypasses_lookup_but_stores sampleOrigin ok200 postReq 0 []
      (by decide)).1,
    (non_get_bypasses_lookup_but_stores sampleOrigin ok200 postReq 0 []
      (by decide)).2.1,
    (non_get_bypasses_lookup_but_stores sampleOrigin ok200 postReq 0 []
      (by decide)).2.2.2.1 200 [("Foo", ["bar"])] [123] rfl (by decide) (by decide)⟩

/-- C10: every cache key begins with the request's method followed by
`':'`; a non-GET request always goes to the origin; a non-GET key can
never equal a GET key (methods without `':'`, as all valid HTTP
method tokens are); and consequently an entry stored under a non-GET
request's key never changes the response served to any request —
non-GET forwarding can never cause any request to be served a
response stored under a different method. -/
theorem non_get_entries_never_served (o : OriginURL)
    (origin : Request → OriginBehavior) (r₁ r₂ : Request)
    (entry : CachedResponse) (now : Nat) (c : Cache)
    (hc₁ : ':' ∉ r₁.method.data) (hng : r₁.method ≠ "GET") :
    (∃ t, generateCacheKey r₁ = r₁.method ++ ":" ++ t)
  ∧ (handleRequest o origin r₁ now c).originCalled = true
  ∧ (r₂.method = "GET" → generateCacheKey r₁ ≠ generateCacheKey r₂)
  ∧ (handleRequest o origin r₂ now (cachePut c (generateCacheKey r₁) entry)).outcome
      = (handleRequest o origin r₂ now c).outcome := by
  have hkeyne : r₂.method = "GET" → generateCacheKey r₁ ≠ generateCacheKey r₂ := by
    intro hm2 he
    rw [generateCacheKey_parts r₁, generateCacheKey_parts r₂] at he
    have hc₂ : ':' ∉ r₂.method.data := by
      rw [hm2]
      decide
    exact hng ((key_method_inj hc₁ hc₂ he).1.trans hm2)
  refine ⟨generateCacheKey_method_leads r₁, ?_, hkeyne, ?_⟩
  · rw [handleRequest_not_get o origin r₁ now c hng]
    rcases ho : origin (director o r₁) with ⟨st, hh, _ | b⟩
    · rw [forwardToOrigin_err o origin _ r₁ now c st hh ho]
    · rw [forwardToOrigin_ok o origin _ r₁ now c st hh b ho]
  · by_cases hm2 : r₂.method = "GET"
    · have hget : cacheGet (cachePut c (generateCacheKey r₁) entry)
          (generateCacheKey r₂) = cacheGet c (generateCacheKey r₂) :=
        cacheGet_cachePut_other c entry (hkeyne hm2)
      rcases hf : cacheGet c (generateCacheKey r₂) with _ | cached
      · rw [handleRequest_miss o origin r₂ now _ hm2 (hget.trans hf),
          handleRequest_miss o origin r₂ now c hm2 hf]
        exact forwardToOrigin_outcome_indep o origin _ r₂ now _ c
      · rw [handleRequest_hit o origin r₂ now _ cached hm2 (hget.trans hf),
          handleRequest_hit o origin r₂ now c cached hm2 hf]
    · rw [handleRequest_not_get o origin r₂ now _ hm2,
        handleRequest_not_get o origin r₂ now c hm2]
      exact forwardToOrigin_outcome_indep o origin _ r₂ now _ c

/-- C5: the cache store only ever holds 2xx responses — the handler
preserves the all-2xx store invariant; a 2xx response is stored on
interception; a response with any other status leaves the store
unchanged; and a repeated GET to an endpoint that always answers
non-2xx misses both times. -/
theorem cache_only_2xx (o : OriginURL) (origin : Request → OriginBehavior)
    (r : Request) (now : Nat) (c : Cache) :
    (cacheAll2xx c → cacheAll2xx (handleRequest o origin r now c).cache)
  ∧ (∀ st h b, origin (director o r) = ⟨st, h, some b⟩ → 200 ≤ st → st < 300 →
      r.method = "GET" → cacheGet c (generateCacheKey r) = none →
      cacheGet (handleRequest o origin r now c).cache (generateCacheKey r)
        = some ⟨b, st, h, now⟩)
  ∧ (∀ st h b, origin (director o r) = ⟨st, h, some b⟩ →
      ¬(200 ≤ st ∧ st < 300) → (handleRequest o origin r now c).cache = c)
  ∧ (∀ st h b, r.method = "GET" → cacheGet c (generateCacheKey r) = none →
      origin (director o r) = ⟨st, h, some b⟩ → ¬(200 ≤ st ∧ st < 300) →
      markerOf (handleRequest o origin r now c) = some "MISS"
      ∧ markerOf (handleRequest o origin r now
          ((handleRequest o origin r now c).cache)) = some "MISS") := by
  refine ⟨?_, ?_, ?_, ?_⟩
  · intro hc
    by_cases hm : r.method = "GET"
    · rcases hf : cacheGet c (generateCacheKey r) with _ | cached
      · rw [handleRequest_miss o origin r now c hm hf]
        exact forward_cache_invariant o origin _ r now c hc
      · rw [handleRequest_hit o origin r now c cached hm hf]
        exact hc
    · rw [handleRequest_not_get o origin r now c hm]
      exact forward_cache_invariant o origin _ r now c hc
  · intro st h b ho h200 h300 hm hf
    rw [handleRequest_miss_store o origin r now c st h b hm hf ho ⟨h200, h300⟩]
    exact cacheGet_cachePut_self c (generateCacheKey r) ⟨b, st, h, now⟩
  · intro st h b ho hn2
    exact handleRequest_nostore_of_not2xx o origin r now c st h b ho hn2
  · intro st h b hm hf ho hn2
    have hsame : (handleRequest o origin r now c).cache = c :=
      handleRequest_nostore_of_not2xx o origin r now c st h b ho hn2
    refine ⟨handleRequest_miss_marker o origin r now c st h b hm hf ho, ?_⟩
    rw [hsame]
    exact handleRequest_miss_marker o origin r now c st h b hm hf ho

/-- Witness for C5: a GET repeated against an origin that always
answers 404 misses twice and leaves the (empty) store empty. -/
theorem cache_only_2xx_witness :
    cacheAll2xx ([] : Cache)
  ∧ cacheAll2xx (handleRequest sampleOrigin err404 reqAB 0 []).cache
  ∧ (handleRequest sampleOrigin err404 reqAB 0 []).cache = []
  ∧ markerOf (handleRequest sampleOrigin err404 reqAB 0 []) = some "MISS"
  ∧ markerOf (handleRequest sampleOrigin err404 reqAB 0
      ((handleRequest sampleOrigin err404 reqAB 0 []).cache)) = some "MISS" := by
  have hemp : cacheAll2xx ([] : Cache) := fun k v h => by simp [cacheGet] at h
  refine ⟨hemp,
    (cache_only_2xx sampleOrigin err404 reqAB 0 []).1 hemp,
    (cache_only_2xx sampleOrigin err404 reqAB 0 []).2.2.1 404 [] [110] rfl
      (by decide),
    ((cache_only_2xx sampleOrigin err404 reqAB 0 []).2.2.2 404 [] [110] rfl rfl
      rfl (by decide)).1,
    ((cache_only_2xx sampleOrigin err404 reqAB 0 []).2.2.2 404 [] [110] rfl rfl
      rfl (by decide)).2⟩

/-- C6: a GET whose key is in the store is served from cache: the
response is exactly the HIT synthesis — marker `X-Cache: HIT`
prepended, every cached header copied with its value sequence
preserved except the suppressed `Connection` and `Transfer-Encoding`,
`Content-Length` set to the cached body's byte length, cached status
and body written verbatim — and the origin is not called. -/
theorem hit_served_from_cache (o : OriginURL) (origin : Request → OriginBehavior)
    (r : Request) (now : Nat) (c : Cache) (cached : CachedResponse)
    (hm : r.method = "GET")
    (hf : cacheGet c (generateCacheKey r) = some cached)
    (hnd : (namesOf cached.headers).Nodup) :
    (handleRequest o origin r now c).outcome = .ok (serveHit cached)
  ∧ (handleRequest o origin r now c).originCalled = false
  ∧ (handleRequest o origin r now c).cache = c
  ∧ (serveHit cached).status = cached.statusCode
  ∧ (serveHit cached).body = cached.response
  ∧ headerValues (serveHit cached).headers "X-Cache"
      = "HIT" :: headerValues cached.headers "X-Cache"
  ∧ headerValues (serveHit cached).headers "Connection" = []
  ∧ headerValues (serveHit cached).headers "Transfer-Encoding" = []
  ∧ headerValues (serveHit cached).headers "Content-Length"
      = [toString cached.response.length]
  ∧ (∀ k, k ≠ "Connection" → k ≠ "Transfer-Encoding" → k ≠ "Content-Length" →
      k ≠ "X-Cache" →
      headerValues (serveHit cached).headers k = headerValues cached.headers k) := by
  obtain ⟨h1, h2, h3, h4, h5, h6, h7⟩ := serveHit_spec cached hnd
  rw [handleRequest_hit o origin r now c cached hm hf]
  exact ⟨rfl, rfl, rfl, h1, h2, h3, h4, h5, h6, h7⟩

/-- Witness for C6: a concrete cached entry carrying a `Connection`
header is served with that header suppressed, the other header
intact, and no origin call. -/
theorem hit_served_from_cache_witness :
    (cacheGet (cachePut [] (generateCacheKey reqAB) cachedSample)
        (generateCacheKey reqAB) = some cachedSample
      ∧ (namesOf cachedSample.headers).Nodup)
  ∧ (handleRequest sampleOrigin ok200 reqAB 0
      (cachePut [] (generateCacheKey reqAB) cachedSample)).outcome
        = .ok (serveHit cachedSample)
  ∧ (handleRequest sampleOrigin ok200 reqAB 0
      (cachePut [] (generateCacheKey reqAB) cachedSample)).originCalled = false
  ∧ headerValues (serveHit cachedSample).headers "Connection" = []
  ∧ headerValues (serveHit cachedSample).headers "Foo" = ["bar"] :=
  ⟨⟨by decide, by decide⟩,
    (hit_served_from_cache sampleOrigin ok200 reqAB 0
      (cachePut [] (generateCacheKey reqAB) cachedSample) cachedSample rfl
      (by decide) (by decide)).1,
    (hit_served_from_cache sampleOrigin ok200 reqAB 0
      (cachePut [] (generateCacheKey reqAB) cachedSample) cachedSample rfl
      (by decide) (by decide)).2.1,
    (hit_served_from_cache sampleOrigin ok200 reqAB 0
      (cachePut [] (generateCacheKey reqAB) cachedSample) cachedSample rfl
      (by decide) (by decide)).2.2.2.2.2.2.1,
    (hit_served_from_cache sampleOrigin ok200 reqAB 0
      (cachePut [] (generateCacheKey reqAB) cachedSample) cachedSample rfl
      (by decide) (by decide)).2.2.2.2.2.2.2.2.2 "Foo" (by decide) (by decide)
      (by decide) (by decide)⟩

/-- C7 counterexample: the claim demands the second (HIT) response's
headers be identical to the first origin response's minus only
`Connection` and `Transfer-Encoding`; but at a concrete run they also
differ at the non-hop-by-hop names `X-Cache` (added marker) and
`Content-Length` (recomputed), so the claim as stated fails. -/
theorem second_hit_headers_not_identical :
    (handleRequest sampleOrigin ok200 reqAB 1
        ((handleRequest sampleOrigin ok200 reqAB 0 []).cache)).outcome
      = .ok (serveHit ⟨[123], 200, [("Foo", ["bar"])], 0⟩)
  ∧ ("X-Cache" ≠ "Connection" ∧ "X-Cache" ≠ "Transfer-Encoding"
      ∧ headerValues (serveHit ⟨[123], 200, [("Foo", ["bar"])], 0⟩).headers
          "X-Cache" = ["HIT"]
      ∧ headerValues [("Foo", ["bar"])] "X-Cache" = [])
  ∧ ("Content-Length" ≠ "Connection" ∧ "Content-Length" ≠ "Transfer-Encoding"
      ∧ headerValues (serveHit ⟨[123], 200, [("Foo", ["bar"])], 0⟩).headers
          "Content-Length" = ["1"]
      ∧ headerValues [("Foo", ["bar"])] "Content-Length" = []) := by
  decide

/-- C7 (amended): issuing the same GET twice against a store empty for
that key, with the origin answering a fixed 2xx response: the first
request is a MISS that stores the response; the second is a HIT whose
body bytes and status code are identical to the first origin response,
and whose headers are identical minus the suppressed hop-by-hop
headers `Connection` and `Transfer-Encoding`, the proxy's own
`X-Cache` marker, and `Content-Length`, which is recomputed to the
cached body's byte length. -/
theorem miss_then_hit_idempotence (o : OriginURL)
    (origin : Request → OriginBehavior) (r : Request) (now now' : Nat)
    (c : Cache) (st : Nat) (h : Headers) (b : List Nat)
    (hm : r.method = "GET") (hf : cacheGet c (generateCacheKey r) = none)
    (ho : origin (director o r) = ⟨st, h, some b⟩)
    (h200 : 200 ≤ st) (h300 : st < 300) (hnd : (namesOf h).Nodup) :
    markerOf (handleRequest o origin r now c) = some "MISS"
  ∧ (handleRequest o origin r now c).cache
      = cachePut c (generateCacheKey r) ⟨b, st, h, now⟩
  ∧ (handleRequest o origin r now' ((handleRequest o origin r now c).cache)).outcome
      = .ok (serveHit ⟨b, st, h, now⟩)
  ∧ (handleRequest o origin r now'
      ((handleRequest o origin r now c).cache)).originCalled = false
  ∧ markerOf (handleRequest o origin r now'
      ((handleRequest o origin r now c).cache)) = some "HIT"
  ∧ (serveHit ⟨b, st, h, now⟩).body = b
  ∧ (serveHit ⟨b, st, h, now⟩).status = st
  ∧ (∀ k, k ≠ "Connection" → k ≠ "Transfer-Encoding" → k ≠ "Content-Length" →
      k ≠ "X-Cache" →
      headerValues (serveHit ⟨b, st, h, now⟩).headers k = headerValues h k)
  ∧ headerValues (serveHit ⟨b, st, h, now⟩).headers "Content-Length"
      = [toString b.length]
  ∧ headerValues (serveHit ⟨b, st, h, now⟩).headers "Connection" = []
  ∧ headerValues (serveHit ⟨b, st, h, now⟩).headers "Transfer-Encoding" = [] := by
  have hstore := handleRequest_miss_store o origin r now c st h b hm hf ho
    ⟨h200, h300⟩
  have hf2 : cacheGet ((handleRequest o origin r now c).cache)
      (generateCacheKey r) = some ⟨b, st, h, now⟩ := by
    rw [hstore]
    exact cacheGet_cachePut_self c (generateCacheKey r) ⟨b, st, h, now⟩
  obtain ⟨s1, s2, s3, s4, s5, s6, s7⟩ := serveHit_spec ⟨b, st, h, now⟩ hnd
  refine ⟨handleRequest_miss_marker o origin r now c st h b hm hf ho, hstore,
    ?_, ?_, ?_, s2, s1, s7, s6, s4, s5⟩
  · rw [handleRequest_hit o origin r now' _ ⟨b, st, h, now⟩ hm hf2]
  · rw [handleRequest_hit o origin r now' _ ⟨b, st, h, now⟩ hm hf2]
  · rw [handleRequest_hit o origin r now' _ ⟨b, st, h, now⟩ hm hf2]
    show (headerValues (serveHit ⟨b, st, h, now⟩).headers "X-Cache").head?
      = some "HIT"
    rw [s3]
    rfl

/-- Witness for C7 (amended) at a concrete request and origin. -/
theorem miss_then_hit_idempotence_witness :
    markerOf (handleRequest sampleOrigin ok200 reqAB 0 []) = some "MISS"
  ∧ (handleRequest sampleOrigin ok200 reqAB 1
      ((handleRequest sampleOrigin ok200 reqAB 0 []).cache)).outcome
        = .ok (serveHit ⟨[123], 200, [("Foo", ["bar"])], 0⟩)
  ∧ markerOf (handleRequest sampleOrigin ok200 reqAB 1
      ((handleRequest sampleOrigin ok200 reqAB 0 []).cache)) = some "HIT"
  ∧ (serveHit ⟨[123], 200, [("Foo", ["bar"])], 0⟩).body = [123] :=
  ⟨(miss_then_hit_idempotence sampleOrigin ok200 reqAB 0 1 [] 200
      [("Foo", ["bar"])] [123] rfl rfl rfl (by decide) (by decide) (by decide)).1,
    (miss_then_hit_idempotence sampleOrigin ok200 reqAB 0 1 [] 200
      [("Foo", ["bar"])] [123] rfl rfl rfl (by decide) (by decide)
      (by decide)).2.2.1,
    (miss_then_hit_idempotence sampleOrigin ok200 reqAB 0 1 [] 200
      [("Foo", ["bar"])] [123] rfl rfl rfl (by decide) (by decide)
      (by decide)).2.2.2.2.1,
    (miss_then_hit_idempotence sampleOrigin ok200 reqAB 0 1 [] 200
      [("Foo", ["bar"])] [123] rfl rfl rfl (by decide) (by decide)
      (by decide)).2.2.2.2.2.1⟩

/-- C8: when reading the origin response body fails during response
interception, `ModifyResponse` returns an error and leaves the cache
store completely unchanged; at the handler level the forwarded
request's outcome is the error surfaced to the client and the cache
after the request equals the cache before it. -/
theorem body_read_failure_atomic (o : OriginURL)
    (origin : Request → OriginBehavior) (r : Request) (now : Nat) (c : Cache)
    (st : Nat) (h : Headers)
    (ho : origin (director o r) = ⟨st, h, none⟩) :
    (modifyResponse (director o r) st h none now c).cache = c
  ∧ (modifyResponse (director o r) st h none now c).result
      = .error "failed to read response body for caching"
  ∧ ((handleRequest o origin r now c).originCalled = true →
      (handleRequest o origin r now c).outcome
        = .err "failed to read response body for caching"
      ∧ (handleRequest o origin r now c).cache = c) := by
  refine ⟨rfl, rfl, ?_⟩
  intro hcall
  by_cases hm : r.method = "GET"
  · rcases hf : cacheGet c (generateCacheKey r) with _ | cached
    · rw [handleRequest_miss o origin r now c hm hf,
        forwardToOrigin_err o origin _ r now c st h ho]
      exact ⟨rfl, rfl⟩
    · rw [handleRequest_hit o origin r now c cached hm hf] at hcall
      exact absurd hcall (by simp)
  · rw [handleRequest_not_get o origin r now c hm,
      forwardToOrigin_err o origin _ r now c st h ho]
    exact ⟨rfl, rfl⟩

/-- Witness for C8: a concrete GET whose origin body read fails — the
request errors out and the store stays empty. -/
theorem body_read_failure_atomic_witness :
    (modifyResponse (director sampleOrigin reqAB) 200 [] none 0 []).cache = []
  ∧ (handleRequest sampleOrigin failOrigin reqAB 0 []).outcome
      = .err "failed to read response body for caching"
  ∧ (handleRequest sampleOrigin failOrigin reqAB 0 []).cache = [] :=
  ⟨(body_read_failure_atomic sampleOrigin failOrigin reqAB 0 [] 200 [] rfl).1,
    ((body_read_failure_atomic sampleOrigin failOrigin reqAB 0 [] 200 [] rfl).2.2
      (by decide)).1,
    ((body_read_failure_atomic sampleOrigin failOrigin reqAB 0 [] 200 [] rfl).2.2
      (by decide)).2⟩

/-- Witness for C10 at a concrete POST/GET pair sharing path and
query. -/
theorem non_get_entries_never_served_witness :
    (':' ∉ postReq.method.data ∧ postReq.method ≠ "GET")
  ∧ (∃ t, generateCacheKey postReq = postReq.method ++ ":" ++ t)
  ∧ (postReq.method = "GET" → generateCacheKey postReq ≠ generateCacheKey postReq)
  ∧ (handleRequest sampleOrigin ok200 reqAB 0
      (cachePut [] (generateCacheKey postReq) ⟨[7], 200, [], 0⟩)).outcome
      = (handleRequest sampleOrigin ok200 reqAB 0 []).outcome :=
  ⟨⟨by decide, by decide⟩,
    (non_get_entries_never_served sampleOrigin ok200 postReq reqAB
      ⟨[7], 200, [], 0⟩ 0 [] (by decide) (by decide)).1,
    fun h => absurd h (by decide),
    (non_get_entries_never_served sampleOrigin ok200 postReq reqAB
      ⟨[7], 200, [], 0⟩ 0 [] (by decide) (by decide)).2.2.2⟩

end CachingProxy
